import Mathlib

/-!
Shallow embedding of the multi-library book catalog application
(`app.py`): the CSV-backed data model, the left-join query engine
(`load_books_and_libs`), the location search (`search`), the grouped
all-books view (`all_books`), the dashboard mutations (add / edit /
delete) and the dashboard authorization gate.

Modelling conventions:
* a loaded CSV table is a `List` of typed rows; the empty list models
  both an empty file and a missing/unreadable file (`load_csv_safe`
  returns an empty DataFrame in either case);
* a pandas cell that can be NaN (the library-side columns of the left
  join) is an `Option String`, `none` standing for NaN; `astype(str)`
  on such a cell is `strOfCell`, which renders NaN as `"nan"` exactly
  as pandas does;
* Python `str.strip` is `trimStr`, `str.lower` maps `Char.toLower`
  over the characters, and `np.char.find(h, n) != -1` is substring
  containment `hasInfixL`.
-/

namespace App

/-- A row of `books.csv` (`book_id`, `title`, `author`, `library_id`),
with identifier columns read as integers. -/
structure Book where
  book_id : Int
  title : String
  author : String
  library_id : Int
deriving DecidableEq

/-- A row of `libraries.csv` (`library_id`, `name`, `pincode`,
`contact`); `pincode` is kept as text. -/
structure Library where
  library_id : Int
  name : String
  pincode : String
  contact : String
deriving DecidableEq

/-- A row of the merged DataFrame `books.merge(libs, on="library_id",
how="left")`: the book columns plus the three library columns, which
are NaN (`none`) when the book's `library_id` matched no library. -/
structure EnrichedRow where
  book_id : Int
  title : String
  author : String
  library_id : Int
  name : Option String
  pincode : Option String
  contact : Option String
deriving DecidableEq

/-- A search result row: the projection of an enriched row to
`["title", "author", "name", "pincode", "contact"]`. -/
structure ResultRow where
  title : String
  author : String
  name : Option String
  pincode : Option String
  contact : Option String
deriving DecidableEq

/-- One record of the all-books view: a `(title, author)` group with
its aggregated locations string. -/
structure TitleGroup where
  title : String
  author : String
  locations : String
deriving DecidableEq

/-- `astype(str)` on a possibly-NaN cell: pandas renders NaN as the
string `"nan"`. -/
def strOfCell : Option String → String
  | none => "nan"
  | some s => s

/-- Python `str.strip()` on the character list: drop whitespace from
both ends. -/
def trimList (l : List Char) : List Char :=
  ((l.dropWhile Char.isWhitespace).reverse.dropWhile Char.isWhitespace).reverse

/-- Python `str.strip()`. -/
def trimStr (s : String) : String := ⟨trimList s.data⟩

/-- Character-wise lowercasing, as `str.lower()` / `np.char.lower`. -/
def lowerStr (s : String) : String := ⟨s.data.map Char.toLower⟩

/-- `needle` occurs at the start of `hay`. -/
def startsWithL : List Char → List Char → Bool
  | [], _ => true
  | _ :: _, [] => false
  | a :: as, b :: bs => a == b && startsWithL as bs

/-- `needle` occurs as a contiguous substring of `hay`
(`np.char.find(hay, needle) != -1`). -/
def hasInfixL (needle : List Char) : List Char → Bool
  | [] => startsWithL needle []
  | b :: bs => startsWithL needle (b :: bs) || hasInfixL needle bs

/-- Case-insensitive substring containment used by the search filters:
`needle.lower() in hay.lower()`. -/
def containsCI (hay needle : String) : Bool :=
  hasInfixL (lowerStr needle).data (lowerStr hay).data

/-- `drop_duplicates` over an arbitrary row type: keep the first
occurrence of each value, given the values already seen. -/
def dropDupAux {α : Type} [DecidableEq α] (seen : List α) : List α → List α
  | [] => []
  | a :: l => if a ∈ seen then dropDupAux seen l else a :: dropDupAux (a :: seen) l

/-- pandas `drop_duplicates`: keep the first occurrence of each row. -/
def dropDup {α : Type} [DecidableEq α] (l : List α) : List α :=
  dropDupAux [] l

/-- `", ".join(l)`. -/
def joinComma : List String → String
  | [] => ""
  | [s] => s
  | s :: rest => s ++ ", " ++ joinComma rest

/-- `df["book_id"].max()` over a non-empty id list (the `[]` case is
never reached by the caller, which tests emptiness first). -/
def maxId : List Int → Int
  | [] => 0
  | x :: xs => xs.foldl max x

/-- The rows a single book contributes to the left join
`books.merge(libs, on="library_id", how="left")`: one row per
matching library, or a single row with NaN library columns when no
library matches. -/
def enrichRow (libs : List Library) (b : Book) : List EnrichedRow :=
  match libs.filter (fun l => l.library_id == b.library_id) with
  | [] => [⟨b.book_id, b.title, b.author, b.library_id, none, none, none⟩]
  | m :: ms => (m :: ms).map (fun l =>
      ⟨b.book_id, b.title, b.author, b.library_id, some l.name, some l.pincode, some l.contact⟩)

/-- `load_books_and_libs`: returns the empty frame when either input
table is empty (or failed to load), otherwise the left join of books
against libraries on `library_id`. -/
def load_books_and_libs (books : List Book) (libs : List Library) : List EnrichedRow :=
  if books.isEmpty || libs.isEmpty then []
  else books.flatMap (enrichRow libs)

/-- Outcome of the `/search` POST handler: validation redirect
("Please provide a title and pincode."), the no-data redirect
("No data available."), the empty-result redirect ("No books found."),
or a rendered result list. -/
inductive SearchOutcome where
  | invalidInput : SearchOutcome
  | noData : SearchOutcome
  | noBooks : SearchOutcome
  | results : List ResultRow → SearchOutcome
deriving DecidableEq

/-- Projection of an enriched row to the five result columns. -/
def projectRow (r : EnrichedRow) : ResultRow :=
  ⟨r.title, r.author, r.name, r.pincode, r.contact⟩

/-- The `/search` handler `search`: strip the three form fields,
require title and pincode, load the join, filter to the exact pincode
(after `astype(str)`), filter titles (and, when the author term is
non-empty, authors) by case-insensitive substring containment, project
to the five result columns and drop duplicate rows. -/
def search (books : List Book) (libs : List Library)
    (titleRaw authorRaw pincodeRaw : String) : SearchOutcome :=
  let title_term := trimStr titleRaw
  let author_term := trimStr authorRaw
  let pincode := trimStr pincodeRaw
  if title_term = "" ∨ pincode = "" then .invalidInput
  else
    let df := load_books_and_libs books libs
    if df.isEmpty then .noData
    else
      let df1 := df.filter (fun r => strOfCell r.pincode == pincode)
      if df1.isEmpty then .noBooks
      else
        let filtered := df1.filter (fun r =>
          containsCI r.title title_term &&
            (author_term == "" || containsCI r.author author_term))
        if filtered.isEmpty then .noBooks
        else .results (dropDup (filtered.map projectRow))

/-- The `location` column assigned before grouping:
`name.astype(str) + " (" + pincode.astype(str) + ")"`. -/
def locationStr (r : EnrichedRow) : String :=
  strOfCell r.name ++ " (" ++ strOfCell r.pincode ++ ")"

/-- The aggregated locations of one `(title, author)` group:
`sorted(set(location column of the group))`. -/
def groupLocations (df : List EnrichedRow) (key : String × String) : List String :=
  List.insertionSort (· ≤ ·)
    (dropDup ((df.filter (fun r => r.title == key.1 && r.author == key.2)).map locationStr))

/-- Lexicographic order on the `(title, author)` group keys: pandas
`groupby` sorts the group keys (tuple comparison). -/
def keyLE (a b : String × String) : Prop :=
  a.1 < b.1 ∨ (a.1 = b.1 ∧ a.2 ≤ b.2)

instance : DecidableRel keyLE := fun a b =>
  inferInstanceAs (Decidable (a.1 < b.1 ∨ (a.1 = b.1 ∧ a.2 ≤ b.2)))

/-- The `/all_books` handler `all_books`: `none` models the
"No data available." redirect when the join is empty; otherwise one
record per distinct `(title, author)` key (keys in pandas `groupby`
sorted order), each with `", ".join(sorted(set(...)))` of the group's
location strings. -/
def all_books (books : List Book) (libs : List Library) : Option (List TitleGroup) :=
  let df := load_books_and_libs books libs
  if df.isEmpty then none
  else
    let keys := List.insertionSort keyLE (dropDup (df.map (fun r => (r.title, r.author))))
    some (keys.map (fun k => ⟨k.1, k.2, joinComma (groupLocations df k)⟩))

/-- The user-visible failure taxonomy of the dashboard mutations:
missing title/author, a `book_id` that does not parse as an integer,
or a `book_id` matching no row. -/
inductive MutErr where
  | validation : MutErr
  | invalidId : MutErr
  | notFound : MutErr
deriving DecidableEq

/-- The `add` action: strip and require title and author, assign
`book_id = max existing + 1` (1 on an empty dataset) and append the
row bound to the dashboard's `library_id`. -/
def addBook (books : List Book) (library_id : Int)
    (titleRaw authorRaw : String) : Except MutErr (List Book) :=
  let title := trimStr titleRaw
  let author := trimStr authorRaw
  if title = "" ∨ author = "" then .error .validation
  else
    let new_id : Int := if books.isEmpty then 1 else maxId (books.map (·.book_id)) + 1
    .ok (books ++ [⟨new_id, title, author, library_id⟩])

/-- The `edit` action; `none` for the form value models
`int(request.form.get("book_id"))` raising. Every row whose
`book_id` matches the target gets the new stripped title and author
(`books_df.loc[mask, ["title", "author"]] = ...`). -/
def editBook (books : List Book) (bid? : Option Int)
    (titleRaw authorRaw : String) : Except MutErr (List Book) :=
  match bid? with
  | none => .error .invalidId
  | some book_id =>
    let title := trimStr titleRaw
    let author := trimStr authorRaw
    if title = "" ∨ author = "" then .error .validation
    else if books.all (fun b => !(b.book_id == book_id)) then .error .notFound
    else .ok (books.map (fun b =>
      if b.book_id == book_id then { b with title := title, author := author } else b))

/-- The `delete` action: keep the rows whose `book_id` differs; when
the length is unchanged report "Book not found.". -/
def deleteBook (books : List Book) (bid? : Option Int) : Except MutErr (List Book) :=
  match bid? with
  | none => .error .invalidId
  | some book_id =>
    let remaining := books.filter (fun b => !(b.book_id == book_id))
    if remaining.length == books.length then .error .notFound
    else .ok remaining

/-- The persisted `books.csv` after a mutation attempt: only a
successful mutation reaches `save_csv_safe`; on any error the handler
redirects without writing. -/
def persist (books : List Book) : Except MutErr (List Book) → List Book
  | .ok newBooks => newBooks
  | .error _ => books

/-- The dashboard guard: `session.get("library_id")` must be present
and equal to the requested `library_id`. -/
def authorizeDashboard (sessionLib : Option Int) (requested : Int) : Bool :=
  match sessionLib with
  | none => false
  | some l => l == requested

/-- Outcome of a dashboard GET: the unauthorized redirect to the home
(public search) page, or the rendered page with the library's own
book rows. -/
inductive DashboardResponse where
  | redirectHome : DashboardResponse
  | page : Int → List Book → DashboardResponse
deriving DecidableEq

/-- The dashboard GET handler: deny and redirect home unless the
session's bound library equals the requested one; on success render
the library's own rows (`books_df[books_df["library_id"] == id]`
sorted by `book_id`). -/
def dashboardView (sessionLib : Option Int) (library_id : Int)
    (books : List Book) : DashboardResponse :=
  if authorizeDashboard sessionLib library_id then
    .page library_id
      (List.insertionSort (fun x y => x.book_id ≤ y.book_id)
        (books.filter (fun b => b.library_id == library_id)))
  else .redirectHome

/-! ## Helper lemmas -/

theorem mem_dropDupAux {α : Type} [DecidableEq α] (a : α) (seen l : List α) :
    a ∈ dropDupAux seen l ↔ a ∈ l ∧ a ∉ seen := by
  induction l generalizing seen with
  | nil => simp [dropDupAux]
  | cons x xs ih =>
    rw [dropDupAux]
    by_cases hx : x ∈ seen
    · rw [if_pos hx, ih]
      constructor
      · rintro ⟨h1, h2⟩
        exact ⟨List.mem_cons_of_mem _ h1, h2⟩
      · rintro ⟨h1, h2⟩
        rcases List.mem_cons.mp h1 with rfl | h1
        · exact absurd hx h2
        · exact ⟨h1, h2⟩
    · rw [if_neg hx]
      constructor
      · intro hmem
        rcases List.mem_cons.mp hmem with rfl | hmem
        · exact ⟨List.mem_cons_self _ _, hx⟩
        · obtain ⟨h1, h2⟩ := (ih _).mp hmem
          exact ⟨List.mem_cons_of_mem _ h1,
            fun hs => h2 (List.mem_cons_of_mem _ hs)⟩
      · rintro ⟨h1, h2⟩
        rcases List.mem_cons.mp h1 with rfl | h1
        · exact List.mem_cons_self _ _
        · by_cases hax : a = x
          · exact hax ▸ List.mem_cons_self _ _
          · refine List.mem_cons_of_mem _ ((ih _).mpr ⟨h1, ?_⟩)
            intro hs
            rcases List.mem_cons.mp hs with h | h
            · exact hax h
            · exact h2 h

theorem nodup_dropDupAux {α : Type} [DecidableEq α] (seen l : List α) :
    (dropDupAux seen l).Nodup := by
  induction l generalizing seen with
  | nil => simp [dropDupAux]
  | cons x xs ih =>
    rw [dropDupAux]
    by_cases hx : x ∈ seen
    · rw [if_pos hx]
      exact ih seen
    · rw [if_neg hx]
      refine List.nodup_cons.mpr ⟨?_, ih (x :: seen)⟩
      intro hmem
      exact ((mem_dropDupAux x (x :: seen) xs).mp hmem).2 (List.mem_cons_self x seen)

theorem mem_dropDup {α : Type} [DecidableEq α] (a : α) (l : List α) :
    a ∈ dropDup l ↔ a ∈ l := by
  simp [dropDup, mem_dropDupAux]

theorem nodup_dropDup {α : Type} [DecidableEq α] (l : List α) :
    (dropDup l).Nodup := nodup_dropDupAux [] l

theorem le_foldl_max (init : Int) (l : List Int) : init ≤ l.foldl max init := by
  induction l generalizing init with
  | nil => simp
  | cons x xs ih => exact le_trans (le_max_left init x) (ih (max init x))

theorem mem_le_foldl_max (x init : Int) (l : List Int) (h : x ∈ l) :
    x ≤ l.foldl max init := by
  induction l generalizing init with
  | nil => cases h
  | cons y ys ih =>
    rcases List.mem_cons.mp h with rfl | h
    · exact le_trans (le_max_right init x) (le_foldl_max _ _)
    · exact ih _ h

theorem foldl_max_mem (init : Int) (l : List Int) :
    l.foldl max init = init ∨ l.foldl max init ∈ l := by
  induction l generalizing init with
  | nil => exact Or.inl rfl
  | cons y ys ih =>
    rcases ih (max init y) with h | h
    · rcases max_choice init y with h' | h' <;> rw [List.foldl_cons, h, h']
      · exact Or.inl rfl
      · exact Or.inr (List.mem_cons_self _ _)
    · exact Or.inr (List.mem_cons_of_mem _ h)

theorem le_maxId (x : Int) (l : List Int) (h : x ∈ l) : x ≤ maxId l := by
  cases l with
  | nil => cases h
  | cons y ys =>
    rcases List.mem_cons.mp h with rfl | h
    · exact le_foldl_max x ys
    · exact mem_le_foldl_max x y ys h

theorem maxId_mem (l : List Int) (h : l ≠ []) : maxId l ∈ l := by
  cases l with
  | nil => exact absurd rfl h
  | cons y ys =>
    rcases foldl_max_mem y ys with h' | h'
    · rw [maxId, h']; exact List.mem_cons_self _ _
    · exact List.mem_cons_of_mem _ h'

/-- A valid add appends exactly the one new row, with id
`max existing + 1` (1 when the dataset is empty). -/
theorem addBook_eq (books : List Book) (lib : Int) (t a : String)
    (ht : trimStr t ≠ "") (ha : trimStr a ≠ "") :
    addBook books lib t a = .ok (books ++
      [⟨if books.isEmpty then 1 else maxId (books.map (·.book_id)) + 1,
        trimStr t, trimStr a, lib⟩]) := by
  rw [addBook, if_neg]
  rintro (h | h)
  · exact ht h
  · exact ha h

/-- The freshly assigned id strictly exceeds every existing id. -/
theorem newId_gt (books : List Book) (b : Book) (hb : b ∈ books) :
    b.book_id <
      (if books.isEmpty then 1 else maxId (books.map (·.book_id)) + 1) := by
  have hbe : books.isEmpty = false := by
    simp [List.isEmpty_iff, List.ne_nil_of_mem hb]
  simp only [hbe, Bool.false_eq_true, if_false]
  have h2 : b.book_id ≤ maxId (books.map (·.book_id)) :=
    le_maxId b.book_id (books.map (·.book_id)) (List.mem_map.mpr ⟨b, hb, rfl⟩)
  omega

/-- In a duplicate-free list, filtering by a predicate that holds
exactly at one member keeps exactly one element. -/
theorem length_filter_unique {α : Type} [DecidableEq α] (l : List α) (x : α)
    (p : α → Bool) (hnd : l.Nodup) (hx : x ∈ l)
    (hp : ∀ y, p y = true ↔ y = x) :
    (l.filter p).length = 1 := by
  have hfl : l.filter p = [x] := by
    induction l with
    | nil => cases hx
    | cons b bs ih =>
      rw [List.filter_cons]
      by_cases hbx : b = x
      · subst hbx
        have hpb : p b = true := (hp b).mpr rfl
        have hbs : bs.filter p = [] := by
          rw [List.filter_eq_nil_iff]
          intro z hz hpz
          exact (List.nodup_cons.mp hnd).1 (((hp z).mp hpz) ▸ hz)
        rw [hpb]
        simp [hbs]
      · have hpb : p b = false := by
          rcases Bool.eq_false_or_eq_true (p b) with htr | hf
          · exact absurd ((hp b).mp htr) hbx
          · exact hf
        rw [hpb]
        simp only [Bool.false_eq_true, if_false]
        have hx2 : x ∈ bs := by
          rcases List.mem_cons.mp hx with h | h
          · exact absurd h.symm hbx
          · exact h
        exact ih (List.nodup_cons.mp hnd).2 hx2
  rw [hfl]
  rfl

/-- Unfolding of `all_books` on a non-empty join. -/
theorem all_books_eq (books : List Book) (libs : List Library)
    (hne : load_books_and_libs books libs ≠ []) :
    all_books books libs = some
      ((List.insertionSort keyLE (dropDup ((load_books_and_libs books libs).map
          (fun r => (r.title, r.author))))).map
        (fun k => ⟨k.1, k.2,
          joinComma (groupLocations (load_books_and_libs books libs) k)⟩)) := by
  have hbe : (load_books_and_libs books libs).isEmpty = false := by
    simp [List.isEmpty_iff, hne]
  simp only [all_books, hbe, Bool.false_eq_true, if_false]

/-- When `search` renders results, the rendered list is exactly the
deduplicated projection of the pincode- and term-filtered join. -/
theorem search_results_shape
    (books : List Book) (libs : List Library) (t a p : String)
    (rs : List ResultRow)
    (h : search books libs t a p = .results rs) :
    rs = dropDup ((((load_books_and_libs books libs).filter
        (fun r => strOfCell r.pincode == trimStr p)).filter
        (fun r => containsCI r.title (trimStr t) &&
          (trimStr a == "" || containsCI r.author (trimStr a)))).map projectRow) := by
  simp only [search] at h
  split_ifs at h
  exact (SearchOutcome.results.inj h).symm

/-! ## Claim theorems -/

/-- C1: every row rendered by the search comes from an enriched
(joined) row whose pincode string equals the given pincode, whose
title contains the title term case-insensitively, and — when the
author term is non-empty — whose author contains the author term
case-insensitively; an empty author term filters nothing. -/
theorem search_results_from_enriched_filtered
    (books : List Book) (libs : List Library) (t a p : String)
    (rs : List ResultRow) (r : ResultRow)
    (hres : search books libs t a p = .results rs) (hr : r ∈ rs) :
    ∃ e ∈ load_books_and_libs books libs,
      projectRow e = r ∧
      strOfCell e.pincode = trimStr p ∧
      containsCI e.title (trimStr t) = true ∧
      (trimStr a ≠ "" → containsCI e.author (trimStr a) = true) := by
  rw [search_results_shape books libs t a p rs hres, mem_dropDup] at hr
  obtain ⟨e, he, hpe⟩ := List.mem_map.mp hr
  have h2 := List.mem_filter.mp he
  have h1 := List.mem_filter.mp h2.1
  obtain ⟨hterms1, hterms2⟩ := Bool.and_eq_true _ _ ▸ h2.2
  refine ⟨e, h1.1, hpe, ?_, hterms1, ?_⟩
  · have := h1.2
    simpa [beq_iff_eq] using this
  · intro hne
    rcases Bool.or_eq_true _ _ ▸ hterms2 with hemp | hcont
    · exact absurd (by simpa [beq_iff_eq] using hemp) hne
    · exact hcont

/-- C1 (witness): the spec's end-to-end example — one library
Central/560001 and the book "Go" by "A. Smith"; searching title "go",
empty author, pincode "560001". -/
theorem search_results_from_enriched_filtered_witness :
    ∃ e ∈ load_books_and_libs [⟨1, "Go", "A. Smith", 1⟩]
        [⟨1, "Central", "560001", "c@x"⟩],
      projectRow e = ⟨"Go", "A. Smith", some "Central", some "560001", some "c@x"⟩ ∧
      strOfCell e.pincode = trimStr "560001" ∧
      containsCI e.title (trimStr "go") = true ∧
      (trimStr "" ≠ "" → containsCI e.author (trimStr "") = true) :=
  search_results_from_enriched_filtered
    [⟨1, "Go", "A. Smith", 1⟩] [⟨1, "Central", "560001", "c@x"⟩]
    "go" "" "560001"
    [⟨"Go", "A. Smith", some "Central", some "560001", some "c@x"⟩]
    ⟨"Go", "A. Smith", some "Central", some "560001", some "c@x"⟩
    (by decide) (by decide)

/-- C8: the rendered search result list never contains two rows that
agree in all five projected fields — `drop_duplicates` leaves a
duplicate-free list. -/
theorem search_results_nodup
    (books : List Book) (libs : List Library) (t a p : String)
    (rs : List ResultRow)
    (hres : search books libs t a p = .results rs) : rs.Nodup := by
  rw [search_results_shape books libs t a p rs hres]
  exact nodup_dropDup _

/-- C8 (witness): the one-row search outcome of the spec example is
duplicate-free. -/
theorem search_results_nodup_witness :
    ([⟨"Go", "A. Smith", some "Central", some "560001", some "c@x"⟩]
      : List ResultRow).Nodup :=
  search_results_nodup [⟨1, "Go", "A. Smith", 1⟩]
    [⟨1, "Central", "560001", "c@x"⟩] "go" "" "560001"
    [⟨"Go", "A. Smith", some "Central", some "560001", some "c@x"⟩]
    (by decide)

/-- C2 (counterexample): a book whose `library_id` (5) matches no
library is kept by the left join, but its library-derived fields are
NaN (`none`), not the empty string as the claim states. -/
theorem enrich_unmatched_empty_string_cex :
    load_books_and_libs [⟨1, "T", "A", 5⟩] [⟨1, "N", "P", "C"⟩]
      = [⟨1, "T", "A", 5, none, none, none⟩] ∧
    ¬ ∃ r ∈ load_books_and_libs [⟨1, "T", "A", 5⟩] [⟨1, "N", "P", "C"⟩],
        r.book_id = 1 ∧ r.name = some "" ∧ r.pincode = some "" ∧ r.contact = some "" := by
  decide

/-- C2 (amended): when the library table is non-empty and a book's
`library_id` matches no library row, the enriched view still contains
that book, with every library-derived field (name, pincode, contact)
equal to the NaN marker `none` — not the empty string. -/
theorem enrich_unmatched_keeps_book_with_nan_fields
    (books : List Book) (libs : List Library) (b : Book)
    (hb : b ∈ books) (hlibs : libs ≠ [])
    (hnomatch : ∀ l ∈ libs, l.library_id ≠ b.library_id) :
    (⟨b.book_id, b.title, b.author, b.library_id, none, none, none⟩ : EnrichedRow)
      ∈ load_books_and_libs books libs := by
  have hfil : libs.filter (fun l => l.library_id == b.library_id) = [] := by
    rw [List.filter_eq_nil_iff]
    intro l hl
    simp only [beq_iff_eq]
    exact hnomatch l hl
  have hrow : enrichRow libs b
      = [⟨b.book_id, b.title, b.author, b.library_id, none, none, none⟩] := by
    unfold enrichRow
    rw [hfil]
  have hbe : books.isEmpty = false := by
    simp [List.isEmpty_iff, List.ne_nil_of_mem hb]
  have hle : libs.isEmpty = false := by
    simp [List.isEmpty_iff, hlibs]
  rw [load_books_and_libs, hbe, hle]
  simp only [Bool.or_self, Bool.false_eq_true, if_false]
  refine List.mem_flatMap.mpr ⟨b, hb, ?_⟩
  rw [hrow]
  exact List.mem_singleton.mpr rfl

/-- C2 (witness for the amended theorem). -/
theorem enrich_unmatched_keeps_book_with_nan_fields_witness :
    (⟨1, "T", "A", 5, none, none, none⟩ : EnrichedRow)
      ∈ load_books_and_libs [⟨1, "T", "A", 5⟩] [⟨1, "N", "P", "C"⟩] :=
  enrich_unmatched_keeps_book_with_nan_fields
    [⟨1, "T", "A", 5⟩] [⟨1, "N", "P", "C"⟩] ⟨1, "T", "A", 5⟩
    (by decide) (by decide) (by decide)

/-- C3: for every `(title, author)` pair occurring in the enriched
rows, the all-books view outputs exactly one record for that pair
under exact string equality, and its locations string is the
comma-space join of a strictly sorted (hence deduplicated) list
holding exactly the `"name (pincode)"` strings of the enriched rows
with that exact pair. -/
theorem allBooks_unique_group_sorted_locations
    (books : List Book) (libs : List Library) (t a : String)
    (h : ∃ r ∈ load_books_and_libs books libs, r.title = t ∧ r.author = a) :
    ∃ gs, all_books books libs = some gs ∧
      (gs.filter (fun g => g.title == t && g.author == a)).length = 1 ∧
      ∀ g ∈ gs, g.title = t → g.author = a →
        ∃ locs : List String,
          g.locations = joinComma locs ∧
          List.Sorted (· < ·) locs ∧
          ∀ s : String, s ∈ locs ↔
            ∃ r ∈ load_books_and_libs books libs,
              r.title = t ∧ r.author = a ∧ locationStr r = s := by
  obtain ⟨r0, hr0, ht0, ha0⟩ := h
  have hdfne : load_books_and_libs books libs ≠ [] := List.ne_nil_of_mem hr0
  refine ⟨_, all_books_eq books libs hdfne, ?_, ?_⟩
  · have hperm := List.perm_insertionSort keyLE
      (dropDup ((load_books_and_libs books libs).map
        (fun r => (r.title, r.author))))
    have hknodup : (List.insertionSort keyLE
        (dropDup ((load_books_and_libs books libs).map
          (fun r => (r.title, r.author))))).Nodup :=
      hperm.nodup_iff.mpr (nodup_dropDup _)
    have hkmem : (t, a) ∈ List.insertionSort keyLE
        (dropDup ((load_books_and_libs books libs).map
          (fun r => (r.title, r.author)))) := by
      rw [hperm.mem_iff, mem_dropDup]
      exact List.mem_map.mpr ⟨r0, hr0, by rw [ht0, ha0]⟩
    rw [List.filter_map, List.length_map]
    refine length_filter_unique _ (t, a) _ hknodup hkmem ?_
    intro y
    constructor
    · intro hy
      obtain ⟨h1, h2⟩ := Bool.and_eq_true _ _ ▸ hy
      exact Prod.ext (by simpa [beq_iff_eq] using h1)
        (by simpa [beq_iff_eq] using h2)
    · rintro rfl
      simp [Function.comp]
  · intro g hg hgt hga
    obtain ⟨k, hk, hfk⟩ := List.mem_map.mp hg
    have hk1 : k.1 = t := by rw [← hgt, ← hfk]
    have hk2 : k.2 = a := by rw [← hga, ← hfk]
    have hkta : k = (t, a) := Prod.ext hk1 hk2
    subst hkta
    refine ⟨groupLocations (load_books_and_libs books libs) (t, a), ?_, ?_, ?_⟩
    · rw [← hfk]
    · have hsle : List.Sorted (· ≤ ·)
          (groupLocations (load_books_and_libs books libs) (t, a)) :=
        List.sorted_insertionSort (· ≤ ·) _
      have hnd : (groupLocations (load_books_and_libs books libs) (t, a)).Nodup :=
        (List.perm_insertionSort (· ≤ ·) _).nodup_iff.mpr (nodup_dropDup _)
      exact hsle.lt_of_le hnd
    · intro s
      rw [groupLocations]
      rw [(List.perm_insertionSort (· ≤ ·) _).mem_iff, mem_dropDup]
      constructor
      · intro hs
        obtain ⟨r, hrf, hrs⟩ := List.mem_map.mp hs
        obtain ⟨hrdf, hrp⟩ := List.mem_filter.mp hrf
        obtain ⟨hp1, hp2⟩ := Bool.and_eq_true _ _ ▸ hrp
        exact ⟨r, hrdf, by simpa [beq_iff_eq] using hp1,
          by simpa [beq_iff_eq] using hp2, hrs⟩
      · rintro ⟨r, hrdf, hrt, hra, hrs⟩
        refine List.mem_map.mpr ⟨r, List.mem_filter.mpr ⟨hrdf, ?_⟩, hrs⟩
        simp [hrt, hra]

/-- C3 (witness): two libraries both holding ("Go", "A"); its single
group record joins the two sorted location strings. -/
theorem allBooks_unique_group_sorted_locations_witness :
    ∃ gs, all_books [⟨1, "Go", "A", 1⟩, ⟨2, "Go", "A", 2⟩]
        [⟨1, "Central", "560001", "c"⟩, ⟨2, "North", "560002", "d"⟩]
        = some gs ∧
      (gs.filter (fun g => g.title == "Go" && g.author == "A")).length = 1 ∧
      ∀ g ∈ gs, g.title = "Go" → g.author = "A" →
        ∃ locs : List String,
          g.locations = joinComma locs ∧
          List.Sorted (· < ·) locs ∧
          ∀ s : String, s ∈ locs ↔
            ∃ r ∈ load_books_and_libs [⟨1, "Go", "A", 1⟩, ⟨2, "Go", "A", 2⟩]
                [⟨1, "Central", "560001", "c"⟩, ⟨2, "North", "560002", "d"⟩],
              r.title = "Go" ∧ r.author = "A" ∧ locationStr r = s :=
  allBooks_unique_group_sorted_locations
    [⟨1, "Go", "A", 1⟩, ⟨2, "Go", "A", 2⟩]
    [⟨1, "Central", "560001", "c"⟩, ⟨2, "North", "560002", "d"⟩]
    "Go" "A" (by decide)

/-- C4: a valid add appends exactly one row, bound to the caller's
`library_id` and carrying the stripped title and author; the new
`book_id` is 1 on an empty dataset, and otherwise is one more than
some existing id while exceeding every existing id — i.e. it is
`max existing + 1`. -/
theorem addBook_assigns_next_id
    (books : List Book) (lib : Int) (t a : String)
    (ht : trimStr t ≠ "") (ha : trimStr a ≠ "") :
    ∃ nw : Book,
      addBook books lib t a = .ok (books ++ [nw]) ∧
      nw.library_id = lib ∧ nw.title = trimStr t ∧ nw.author = trimStr a ∧
      (books = [] → nw.book_id = 1) ∧
      (books ≠ [] →
        (∃ b ∈ books, nw.book_id = b.book_id + 1) ∧
        ∀ b ∈ books, b.book_id < nw.book_id) := by
  refine ⟨⟨if books.isEmpty then 1 else maxId (books.map (·.book_id)) + 1,
          trimStr t, trimStr a, lib⟩, ?_, rfl, rfl, rfl, ?_, ?_⟩
  · rw [addBook, if_neg]
    rintro (h | h)
    · exact ht h
    · exact ha h
  · intro hnil
    simp [hnil]
  · intro hne
    have hbe : books.isEmpty = false := by
      simp [List.isEmpty_iff, hne]
    have hmapne : books.map (·.book_id) ≠ [] := by
      simp [List.map_eq_nil_iff, hne]
    constructor
    · obtain ⟨b, hb, hbid⟩ := List.mem_map.mp (maxId_mem _ hmapne)
      refine ⟨b, hb, ?_⟩
      simp only [hbe, Bool.false_eq_true, if_false, hbid]
    · intro b hb
      have : b.book_id ≤ maxId (books.map (·.book_id)) :=
        le_maxId _ _ (List.mem_map.mpr ⟨b, hb, rfl⟩)
      simp only [hbe, Bool.false_eq_true, if_false]
      omega

/-- C4 (witness): on the dataset with ids {3, 7, 2} the assigned id is
8 = max + 1. -/
theorem addBook_assigns_next_id_witness :
    maxId ([⟨3, "x", "y", 1⟩, ⟨7, "x", "y", 1⟩, ⟨2, "x", "y", 1⟩].map
        (fun b : Book => b.book_id)) + 1 = 8 ∧
    ∃ nw : Book,
      addBook [⟨3, "x", "y", 1⟩, ⟨7, "x", "y", 1⟩, ⟨2, "x", "y", 1⟩] 1 "T" "A"
        = .ok ([⟨3, "x", "y", 1⟩, ⟨7, "x", "y", 1⟩, ⟨2, "x", "y", 1⟩] ++ [nw]) ∧
      nw.library_id = 1 ∧ nw.title = trimStr "T" ∧ nw.author = trimStr "A" ∧
      ([⟨3, "x", "y", 1⟩, ⟨7, "x", "y", 1⟩, ⟨2, "x", "y", 1⟩] = ([] : List Book) →
        nw.book_id = 1) ∧
      (([⟨3, "x", "y", 1⟩, ⟨7, "x", "y", 1⟩, ⟨2, "x", "y", 1⟩] : List Book) ≠ [] →
        (∃ b ∈ ([⟨3, "x", "y", 1⟩, ⟨7, "x", "y", 1⟩, ⟨2, "x", "y", 1⟩] : List Book),
          nw.book_id = b.book_id + 1) ∧
        ∀ b ∈ ([⟨3, "x", "y", 1⟩, ⟨7, "x", "y", 1⟩, ⟨2, "x", "y", 1⟩] : List Book),
          b.book_id < nw.book_id) :=
  ⟨by decide,
   addBook_assigns_next_id [⟨3, "x", "y", 1⟩, ⟨7, "x", "y", 1⟩, ⟨2, "x", "y", 1⟩]
     1 "T" "A" (by decide) (by decide)⟩

/-- C5: a delete whose `book_id` fails integer parsing, or whose id
matches no row, reports an error and leaves the persisted dataset
unchanged; otherwise exactly the matching rows are removed and the
result is persisted. -/
theorem deleteBook_invalid_or_missing_id (books : List Book) (bid? : Option Int) :
    (bid? = none →
      deleteBook books bid? = .error .invalidId ∧
      persist books (deleteBook books bid?) = books) ∧
    (∀ bid, bid? = some bid → (∀ b ∈ books, b.book_id ≠ bid) →
      deleteBook books bid? = .error .notFound ∧
      persist books (deleteBook books bid?) = books) ∧
    (∀ bid, bid? = some bid → (∃ b ∈ books, b.book_id = bid) →
      deleteBook books bid? = .ok (books.filter (fun b => !(b.book_id == bid))) ∧
      persist books (deleteBook books bid?) =
        books.filter (fun b => !(b.book_id == bid))) := by
  refine ⟨?_, ?_, ?_⟩
  · rintro rfl
    exact ⟨rfl, rfl⟩
  · rintro bid rfl hno
    have hfil : books.filter (fun b => !(b.book_id == bid)) = books := by
      rw [List.filter_eq_self]
      intro b hb
      simp [hno b hb]
    have hdel : deleteBook books (some bid) = .error .notFound := by
      rw [deleteBook]
      simp [hfil]
    exact ⟨hdel, by rw [hdel]; rfl⟩
  · rintro bid rfl hex
    have hlt : (books.filter (fun b => !(b.book_id == bid))).length < books.length := by
      rw [List.length_filter_lt_length_iff_exists]
      obtain ⟨b, hb, hbid⟩ := hex
      exact ⟨b, hb, by simp [hbid]⟩
    have hdel : deleteBook books (some bid)
        = .ok (books.filter (fun b => !(b.book_id == bid))) := by
      rw [deleteBook]
      simp only [Nat.ne_of_lt hlt, beq_iff_eq, if_false]
    exact ⟨hdel, by rw [hdel]; rfl⟩

/-- C5 (witness): deleting id 9 from a one-row dataset with id 1
reports Book not found; deleting id 1 removes the row. -/
theorem deleteBook_invalid_or_missing_id_witness :
    deleteBook [⟨1, "T", "A", 2⟩] (some 9) = .error .notFound ∧
    deleteBook [⟨1, "T", "A", 2⟩] none = .error .invalidId ∧
    deleteBook [⟨1, "T", "A", 2⟩] (some 1)
      = .ok ([⟨1, "T", "A", 2⟩].filter (fun b => !(b.book_id == (1 : Int)))) :=
  ⟨((deleteBook_invalid_or_missing_id [⟨1, "T", "A", 2⟩] (some 9)).2.1 9 rfl
      (by decide)).1,
   ((deleteBook_invalid_or_missing_id [⟨1, "T", "A", 2⟩] none).1 rfl).1,
   ((deleteBook_invalid_or_missing_id [⟨1, "T", "A", 2⟩] (some 1)).2.2 1 rfl
      ⟨⟨1, "T", "A", 2⟩, by decide, rfl⟩).1⟩

/-- C7: the dashboard for `library_id` is denied — redirecting to the
public home page, with no page data — exactly when the session's
bound library is absent or differs from the requested one. -/
theorem dashboard_access_iff_bound_library
    (sessionLib : Option Int) (library_id : Int) (books : List Book) :
    dashboardView sessionLib library_id books = .redirectHome ↔
      sessionLib ≠ some library_id := by
  cases sessionLib with
  | none => simp [dashboardView, authorizeDashboard]
  | some l =>
    by_cases h : l = library_id
    · subst h
      simp [dashboardView, authorizeDashboard]
    · simp [dashboardView, authorizeDashboard, h]

/-- C7 (witness): a request for library 5 with session library 7, or
with no session library, is denied. -/
theorem dashboard_access_iff_bound_library_witness :
    dashboardView (some 7) 5 [] = .redirectHome ∧
    dashboardView none 5 [] = .redirectHome ∧
    dashboardView (some 5) 5 [] ≠ .redirectHome :=
  ⟨(dashboard_access_iff_bound_library (some 7) 5 []).mpr (by decide),
   (dashboard_access_iff_bound_library none 5 []).mpr (by decide),
   fun h => ((dashboard_access_iff_bound_library (some 5) 5 []).mp h) rfl⟩

/-- C6: a successful edit changes only the title and author of the
rows matching the target id: row count, every row's `book_id` and
`library_id`, and every non-matching row are unchanged. -/
theorem editBook_frame
    (books : List Book) (bid : Int) (t a : String) (l : List Book)
    (hok : editBook books (some bid) t a = .ok l) :
    l.length = books.length ∧
    ∀ i, (hi : i < books.length) →
      ∃ orig nw : Book, books[i]? = some orig ∧ l[i]? = some nw ∧
        nw.book_id = orig.book_id ∧ nw.library_id = orig.library_id ∧
        (orig.book_id ≠ bid → nw = orig) ∧
        (orig.book_id = bid →
          nw.title = trimStr t ∧ nw.author = trimStr a) := by
  simp only [editBook] at hok
  split_ifs at hok
  have hl : l = books.map (fun b => if b.book_id == bid
      then { b with title := trimStr t, author := trimStr a } else b) :=
    (Except.ok.inj hok).symm
  constructor
  · rw [hl, List.length_map]
  · intro i hi
    have hbi : books[i]? = some books[i] := List.getElem?_eq_getElem hi
    have hli : l[i]? = some (if books[i].book_id == bid
        then { books[i] with title := trimStr t, author := trimStr a }
        else books[i]) := by
      rw [hl, List.getElem?_map, List.getElem?_eq_getElem hi]
      rfl
    by_cases hc : books[i].book_id = bid
    · refine ⟨books[i], { books[i] with title := trimStr t, author := trimStr a },
        hbi, ?_, rfl, rfl, fun hne => absurd hc hne, fun _ => ⟨rfl, rfl⟩⟩
      rw [hli]
      simp [hc]
    · refine ⟨books[i], books[i], hbi, ?_, rfl, rfl, fun _ => rfl,
        fun heq => absurd heq hc⟩
      rw [hli]
      simp [hc]

/-- C6 (witness): editing book 1 in a two-row dataset rewrites only
its title and author. -/
theorem editBook_frame_witness :
    ([⟨1, "New", "Z", 2⟩, ⟨2, "K", "Y", 3⟩] : List Book).length
      = ([⟨1, "Old", "X", 2⟩, ⟨2, "K", "Y", 3⟩] : List Book).length ∧
    ∀ i, (hi : i < ([⟨1, "Old", "X", 2⟩, ⟨2, "K", "Y", 3⟩] : List Book).length) →
      ∃ orig nw : Book,
        ([⟨1, "Old", "X", 2⟩, ⟨2, "K", "Y", 3⟩] : List Book)[i]? = some orig ∧
        ([⟨1, "New", "Z", 2⟩, ⟨2, "K", "Y", 3⟩] : List Book)[i]? = some nw ∧
        nw.book_id = orig.book_id ∧ nw.library_id = orig.library_id ∧
        (orig.book_id ≠ 1 → nw = orig) ∧
        (orig.book_id = 1 →
          nw.title = trimStr "New" ∧ nw.author = trimStr "Z") :=
  editBook_frame [⟨1, "Old", "X", 2⟩, ⟨2, "K", "Y", 3⟩] 1 "New" "Z"
    [⟨1, "New", "Z", 2⟩, ⟨2, "K", "Y", 3⟩] (by rfl)

/-- C9: for any initial dataset, a valid add, then an edit of the new
id, then a delete of that id, all succeed; the edit leaves the row
with the new title and author, the delete returns exactly the
original dataset, and the persisted row count equals its initial
value. -/
theorem add_edit_delete_roundtrip
    (books : List Book) (lib : Int) (t1 a1 t2 a2 : String)
    (ht1 : trimStr t1 ≠ "") (ha1 : trimStr a1 ≠ "")
    (ht2 : trimStr t2 ≠ "") (ha2 : trimStr a2 ≠ "") :
    ∃ (nid : Int) (l1 l2 : List Book),
      addBook books lib t1 a1 = .ok l1 ∧
      l1.length = books.length + 1 ∧
      editBook l1 (some nid) t2 a2 = .ok l2 ∧
      (∃ b ∈ l2, b.book_id = nid ∧ b.title = trimStr t2 ∧
        b.author = trimStr a2) ∧
      deleteBook l2 (some nid) = .ok books ∧
      (persist l2 (deleteBook l2 (some nid))).length = books.length := by
  set nid : Int :=
    if books.isEmpty then 1 else maxId (books.map (·.book_id)) + 1 with hnid
  have hne : ∀ b ∈ books, ¬ b.book_id = nid := by
    intro b hb
    exact Int.ne_of_lt (newId_gt books b hb)
  set nw1 : Book := ⟨nid, trimStr t1, trimStr a1, lib⟩ with hnw1
  set nw2 : Book := ⟨nid, trimStr t2, trimStr a2, lib⟩ with hnw2
  have hadd : addBook books lib t1 a1 = .ok (books ++ [nw1]) :=
    addBook_eq books lib t1 a1 ht1 ha1
  have hmapfix : books.map (fun b => if b.book_id == nid
      then { b with title := trimStr t2, author := trimStr a2 } else b)
      = books := by
    have : ∀ b ∈ books, (fun b : Book => if b.book_id == nid
        then { b with title := trimStr t2, author := trimStr a2 } else b) b
        = id b := by
      intro b hb
      simp [hne b hb]
    rw [List.map_congr_left this, List.map_id]
  have hedit : editBook (books ++ [nw1]) (some nid) t2 a2
      = .ok (books ++ [nw2]) := by
    rw [editBook]
    rw [if_neg]
    · rw [if_neg]
      · rw [List.map_append, hmapfix]
        simp [hnw1, hnw2]
      · intro hall
        have := (List.all_eq_true.mp hall) nw1
          (List.mem_append_right _ (List.mem_singleton.mpr rfl))
        simp [hnw1] at this
    · rintro (h | h)
      · exact ht2 h
      · exact ha2 h
  have hfilbooks : books.filter (fun b => !(b.book_id == nid)) = books := by
    rw [List.filter_eq_self]
    intro b hb
    simp [hne b hb]
  have hfil : (books ++ [nw2]).filter (fun b => !(b.book_id == nid))
      = books := by
    rw [List.filter_append, hfilbooks]
    simp [hnw2]
  have hdel : deleteBook (books ++ [nw2]) (some nid) = .ok books := by
    rw [deleteBook]
    simp only [hfil]
    rw [if_neg]
    simp only [List.length_append, List.length_cons, List.length_nil,
      beq_iff_eq]
    omega
  refine ⟨nid, books ++ [nw1], books ++ [nw2], hadd, by simp, hedit,
    ⟨nw2, List.mem_append_right _ (List.mem_singleton.mpr rfl),
      rfl, rfl, rfl⟩, hdel, ?_⟩
  rw [hdel]
  rfl

/-- C9 (witness): the round trip on the one-row dataset {id 3}. -/
theorem add_edit_delete_roundtrip_witness :
    ∃ (nid : Int) (l1 l2 : List Book),
      addBook [⟨3, "x", "y", 1⟩] 1 "B" "C" = .ok l1 ∧
      l1.length = ([⟨3, "x", "y", 1⟩] : List Book).length + 1 ∧
      editBook l1 (some nid) "D" "E" = .ok l2 ∧
      (∃ b ∈ l2, b.book_id = nid ∧ b.title = trimStr "D" ∧
        b.author = trimStr "E") ∧
      deleteBook l2 (some nid) = .ok [⟨3, "x", "y", 1⟩] ∧
      (persist l2 (deleteBook l2 (some nid))).length
        = ([⟨3, "x", "y", 1⟩] : List Book).length :=
  add_edit_delete_roundtrip [⟨3, "x", "y", 1⟩] 1 "B" "C" "D" "E"
    (by decide) (by decide) (by decide) (by decide)

/-- C10: when either table is empty or missing, the join is empty, so
any valid search reports "No data available." and the all-books view
likewise returns no rows — books are never shown unjoined. -/
theorem empty_table_no_rows (books : List Book) (libs : List Library)
    (h : books = [] ∨ libs = []) :
    load_books_and_libs books libs = [] ∧
    (∀ t a p, trimStr t ≠ "" → trimStr p ≠ "" →
      search books libs t a p = .noData) ∧
    all_books books libs = none := by
  have hload : load_books_and_libs books libs = [] := by
    rcases h with rfl | rfl <;> simp [load_books_and_libs]
  refine ⟨hload, ?_, ?_⟩
  · intro t a p ht hp
    rw [search, if_neg, hload]
    · rfl
    · rintro (h' | h')
      · exact ht h'
      · exact hp h'
  · rw [all_books, hload]
    rfl

/-- C10 (witness): with one book row but no library table, the search
and all-books views return no rows. -/
theorem empty_table_no_rows_witness :
    load_books_and_libs [⟨1, "X", "Y", 2⟩] ([] : List Library) = [] ∧
    search [⟨1, "X", "Y", 2⟩] [] "x" "" "1" = .noData ∧
    all_books [⟨1, "X", "Y", 2⟩] [] = none := by
  obtain ⟨h1, h2, h3⟩ :=
    empty_table_no_rows [⟨1, "X", "Y", 2⟩] [] (Or.inr rfl)
  exact ⟨h1, h2 "x" "" "1" (by decide) (by decide), h3⟩

end App
